import Mathlib

set_option linter.unusedVariables false

/-!
# Verification of the distributed-messaging-api core

A shallow embedding of the messaging backend (`messaging/models.py`,
`messaging/permissions.py`, `messaging/serializers.py`, `messaging/views.py`)
as pure Lean functions over an explicit store state, together with theorems
settling the specification's claims about authorization, unread counting,
read receipts, reaction toggling, envelope validation, ordering, group
membership invariants and broadcast failure isolation.

Identifiers (uuid fields) are modelled as natural numbers, timestamps as
natural numbers, Django querysets as lists filtered/sorted by the same
predicates the source uses.
-/

namespace Messaging

/-- `messaging.models.Group`: a chat group row (uuid id, globally unique name,
creating user). -/
structure Group where
  id : Nat
  name : String
  created_by : Nat
deriving DecidableEq, Repr

/-- `messaging.models.GroupMember`: a membership row, unique per
(user, group), with an admin flag. -/
structure GroupMember where
  user : Nat
  group : Nat
  is_admin : Bool
deriving DecidableEq, Repr

/-- `messaging.models.Message`: a message row. `message_type` is the raw
string column (choices "group"/"private"); optional columns are `Option`s. -/
structure Message where
  id : Nat
  message_type : String
  group : Option Nat
  sender : Nat
  recipient : Option Nat
  content : String
  created_at : Nat
  is_encrypted : Bool
  encrypted_content : Option String
  encrypted_key : Option String
  encrypted_key_self : Option String
  encrypted_keys : Option (List (Nat × String))
  iv : Option String
  parent_message : Option Nat
deriving DecidableEq, Repr

/-- `messaging.models.MessageReadReceipt`: a read-receipt row, unique per
(message, user). -/
structure MessageReadReceipt where
  message : Nat
  user : Nat
deriving DecidableEq, Repr

/-- `messaging.models.MessageReaction`: an emoji reaction row, unique per
(message, user, emoji). -/
structure MessageReaction where
  message : Nat
  user : Nat
  emoji : String
deriving DecidableEq, Repr

/-- The whole persistent store the views read and write.  `nextId` models the
allocator of fresh primary keys. -/
structure State where
  groups : List Group
  members : List GroupMember
  messages : List Message
  receipts : List MessageReadReceipt
  reactions : List MessageReaction
  nextId : Nat
deriving DecidableEq, Repr

/-- `GroupMember.objects.filter(user=u, group=g).exists()`. -/
def memberExists (ms : List GroupMember) (u g : Nat) : Bool :=
  ms.any fun r => r.user == u && r.group == g

/-- `permissions.CanAccessMessage.has_object_permission`: group messages need
current membership of the message's group, private messages need the viewer to
be sender or recipient, anything else is denied. -/
def CanAccessMessage (ms : List GroupMember) (user : Nat) (obj : Message) : Bool :=
  if obj.message_type == "group" then
    ms.any fun r => r.user == user && some r.group == obj.group
  else if obj.message_type == "private" then
    user == obj.sender || obj.recipient == some user
  else
    false

/-- `permissions.IsMessageSender.has_object_permission`. -/
def IsMessageSender (user : Nat) (obj : Message) : Bool :=
  obj.sender == user

/-- `permissions.IsGroupAdmin.has_object_permission`: first matching
membership row's admin flag, false when there is none. -/
def IsGroupAdmin (ms : List GroupMember) (user g : Nat) : Bool :=
  match ms.find? (fun r => r.user == user && r.group == g) with
  | none => false
  | some r => r.is_admin

/-- `GroupViewSet.leave`: the group creator may not leave; otherwise the
caller's membership rows for the group are deleted.  The `IsGroupMember`
object permission runs before the handler body. -/
def leave (s : State) (user gid : Nat) : State × Except String String :=
  match s.groups.find? (fun g => g.id == gid) with
  | none => (s, Except.error "Not found")
  | some g =>
    if !(memberExists s.members user gid) then
      (s, Except.error "You must be a member of this group to perform this action.")
    else if g.created_by == user then
      (s, Except.error "Group creator cannot leave. Delete the group instead.")
    else if (s.members.filter (fun r => r.user == user && r.group == gid)).length > 0 then
      ({ s with members := s.members.filter fun r => !(r.user == user && r.group == gid) },
        Except.ok "Successfully left the group")
    else
      (s, Except.error "You are not a member of this group")

/-- The `order_by("-created_at")` comparator (also `Message.Meta.ordering =
["-created_at"]`): a message sorts no later than another iff its creation
timestamp is at least the other's.  No further tie-break key appears in the
source. -/
def msgLe (a b : Message) : Bool :=
  decide (b.created_at ≤ a.created_at)

/-- Insertion into a list sorted newest-first. -/
def insertDesc (m : Message) : List Message → List Message
  | [] => [m]
  | x :: xs => if msgLe m x then m :: x :: xs else x :: insertDesc m xs

/-- Sorting newest-first by `created_at`: the effect of the source's
`order_by("-created_at")`. -/
def sortByCreatedDesc (l : List Message) : List Message :=
  l.foldr insertDesc []

/-- Sorted newest-first: each message's timestamp is at least every later
one's. -/
def SortedDesc (l : List Message) : Prop :=
  l.Pairwise fun a b => b.created_at ≤ a.created_at

/-- Query parameters of `MessageViewSet.get_queryset`. -/
structure QueryParams where
  group : Option Nat
  message_type : Option String
  recipient : Option Nat
  since : Option Nat
deriving DecidableEq, Repr

/-- No query parameters (actions such as `mark_read`, `unread`, `react`). -/
def noParams : QueryParams := ⟨none, none, none, none⟩

/-- The access filter compiled into `MessageViewSet.get_queryset`:
group-membership join OR sender=self OR recipient=self. -/
def accessibleFilter (members : List GroupMember) (user : Nat) (m : Message) : Bool :=
  (m.message_type == "group" && (members.any fun r => r.user == user && some r.group == m.group))
  || (m.message_type == "private" && m.sender == user)
  || (m.message_type == "private" && m.recipient == some user)

/-- `MessageViewSet.get_queryset`: access filter, then the optional group /
message_type / recipient / since filters, then `order_by("-created_at")`. -/
def get_queryset (s : State) (user : Nat) (p : QueryParams) : List Message :=
  let q := s.messages.filter (accessibleFilter s.members user)
  let q := match p.group with
    | some g => q.filter (fun m => m.group == some g)
    | none => q
  let q := match p.message_type with
    | some t => if t == "group" || t == "private" then q.filter (fun m => m.message_type == t) else q
    | none => q
  let q := match p.recipient with
    | some rid =>
      if p.message_type == some "private" then
        q.filter (fun m => (m.recipient == some rid && m.sender == user)
          || (m.sender == rid && m.recipient == some user))
      else q
    | none => q
  let q := match p.since with
    | some t => q.filter (fun m => decide (t ≤ m.created_at))
    | none => q
  sortByCreatedDesc q

/-- Result of `MessageViewSet.mark_read`: the 400 error response, or the
(marked_count, read_messages) payload. -/
inductive MarkReadResult where
  | error (msg : String)
  | ok (marked_count : Nat) (read_messages : List Nat)
deriving DecidableEq, Repr

/-- The receipt-creation loop of `MessageViewSet.mark_read`: for each message,
skip it if a receipt for (message, user) exists, otherwise create one and
record the id. -/
def markReadLoop (user : Nat) : List Message → State → Nat → List Nat → State × Nat × List Nat
  | [], st, cnt, ids => (st, cnt, ids)
  | m :: rest, st, cnt, ids =>
    if st.receipts.any (fun r => r.message == m.id && r.user == user) then
      markReadLoop user rest st cnt ids
    else
      markReadLoop user rest
        { st with receipts := st.receipts ++ [⟨m.id, user⟩] } (cnt + 1) (ids ++ [m.id])

/-- `MessageViewSet.mark_read`: reject an empty id list, restrict the batch to
accessible messages, then create the missing receipts. -/
def mark_read (s : State) (user : Nat) (message_ids : List Nat) : State × MarkReadResult :=
  if message_ids.isEmpty then
    (s, MarkReadResult.error "No message IDs provided")
  else
    let msgs := (get_queryset s user noParams).filter (fun m => message_ids.contains m.id)
    let r := markReadLoop user msgs s 0 []
    (r.1, MarkReadResult.ok r.2.1 r.2.2)

/-- `MessageViewSet.unread`: count and list the accessible messages without a
receipt for the user. -/
def unread (s : State) (user : Nat) : Nat × List Nat :=
  let all_messages := get_queryset s user noParams
  let read := (s.receipts.filter fun r =>
      r.user == user && all_messages.any (fun m => m.id == r.message)).map (fun r => r.message)
  let unreadMsgs := all_messages.filter fun m => !(read.contains m.id)
  (unreadMsgs.length, unreadMsgs.map (fun m => m.id))

/-- Payload of `_get_unread_counts_for_user` (groups/users hold only the
non-zero per-chat counts). -/
structure UnreadCounts where
  total_unread : Nat
  groups : List (Nat × Nat)
  users : List (Nat × Nat)
deriving DecidableEq, Repr

/-- The eligible message set of `_get_unread_counts_for_user`: group messages
of groups the user belongs to, or private messages to the user, excluding
everything the user sent. -/
def unreadEligible (s : State) (user : Nat) : List Message :=
  s.messages.filter fun m =>
    ((m.message_type == "group" && (s.members.any fun r => r.user == user && some r.group == m.group))
      || (m.message_type == "private" && m.recipient == some user))
    && !(m.sender == user)

/-- `MessageReadReceipt.objects.filter(user=user).values_list("message_id")`. -/
def readIds (s : State) (user : Nat) : List Nat :=
  (s.receipts.filter fun r => r.user == user).map (fun r => r.message)

/-- `Group.objects.filter(groupmember__user=user)`. -/
def userGroups (s : State) (user : Nat) : List Group :=
  s.groups.filter fun g => s.members.any fun r => r.user == user && r.group == g.id

/-- `MessageViewSet._get_unread_counts_for_user`: per-group and per-sender
unread counts over the eligible set minus the read set; the total is the sum
of the two groupings. -/
def get_unread_counts_for_user (s : State) (user : Nat) : UnreadCounts :=
  let all_messages := unreadEligible s user
  let read := readIds s user
  let group_messages := all_messages.filter fun m => m.message_type == "group"
  let group_counts :=
    ((userGroups s user).map fun g =>
      (g.id, (group_messages.filter fun m =>
        m.group == some g.id && !(read.contains m.id)).length)).filter fun p => 0 < p.2
  let private_messages := all_messages.filter fun m =>
    m.message_type == "private" && m.recipient == some user
  let senders := (private_messages.map (fun m => m.sender)).dedup
  let user_counts :=
    ((senders.filter fun sid => !(sid == user)).map fun sid =>
      (sid, (private_messages.filter fun m =>
        m.sender == sid && !(read.contains m.id)).length)).filter fun p => 0 < p.2
  { total_unread := (group_counts.map (fun p => p.2)).sum + (user_counts.map (fun p => p.2)).sum
    groups := group_counts
    users := user_counts }

/-- `MessageViewSet.react`: resolve the message through the accessible
queryset (`get_object`), require an emoji, then toggle the
(message, user, emoji) row, reporting the action taken. -/
def react (s : State) (user mid : Nat) (emoji : String) : State × Except String String :=
  match (get_queryset s user noParams).find? (fun m => m.id == mid) with
  | none => (s, Except.error "Not found")
  | some m =>
    if emoji == "" then
      (s, Except.error "Emoji is required")
    else if s.reactions.any (fun r => r.message == m.id && r.user == user && r.emoji == emoji) then
      ({ s with reactions := s.reactions.filter fun r =>
          !(r.message == m.id && r.user == user && r.emoji == emoji) },
        Except.ok "removed")
    else
      ({ s with reactions := s.reactions ++ [⟨m.id, user, emoji⟩] }, Except.ok "added")

/-- Incoming message draft (`MessageSerializer` write fields). -/
structure MessageDraft where
  message_type : String
  group : Option Nat
  recipient : Option Nat
  content : Option String
  is_encrypted : Bool
  encrypted_content : Option String
  encrypted_key : Option String
  encrypted_key_self : Option String
  encrypted_keys : Option (List (Nat × String))
  iv : Option String
deriving DecidableEq, Repr

/-- Python truthiness of an optional text field (`attrs.get(...)`): present
and non-empty. -/
def strPresent : Option String → Bool
  | none => false
  | some s => !(s == "")

/-- Python truthiness of the optional `encrypted_keys` JSON mapping. -/
def keysPresent : Option (List (Nat × String)) → Bool
  | none => false
  | some l => !l.isEmpty

/-- A `serializers.ValidationError` keyed by the offending field. -/
structure ValidationError where
  field : String
  message : String
deriving DecidableEq, Repr

/-- The content-defaulting stage of `MessageSerializer.validate` for
encrypted drafts: an absent/empty `content` becomes the empty string. -/
def contentStep (a : MessageDraft) : MessageDraft :=
  if strPresent a.content then a else { a with content := some "" }

/-- The envelope and shape checks of `MessageSerializer.validate` (everything
after the content handling), in source order. -/
def validateShape (members : List GroupMember) (user : Nat) (a : MessageDraft) :
    Except ValidationError MessageDraft :=
  if a.is_encrypted && a.message_type == "group" && !(strPresent a.encrypted_content) then
      Except.error ⟨"encrypted_content", "Encrypted group messages must have encrypted_content."⟩
    else if a.is_encrypted && a.message_type == "group" && !(keysPresent a.encrypted_keys) then
      Except.error ⟨"encrypted_keys", "Encrypted group messages must have encrypted_keys."⟩
    else if a.is_encrypted && a.message_type == "group" && !(strPresent a.iv) then
      Except.error ⟨"iv", "Encrypted messages must have an IV."⟩
    else if a.is_encrypted && a.message_type == "private" && !(strPresent a.encrypted_content) then
      Except.error ⟨"encrypted_content", "Encrypted private messages must have encrypted_content."⟩
    else if a.is_encrypted && a.message_type == "private" && !(strPresent a.encrypted_key) then
      Except.error ⟨"encrypted_key", "Encrypted private messages must have encrypted_key."⟩
    else if a.is_encrypted && a.message_type == "private" && !(strPresent a.encrypted_key_self) then
      Except.error ⟨"encrypted_key_self", "Encrypted private messages must have encrypted_key_self."⟩
    else if a.is_encrypted && a.message_type == "private" && !(strPresent a.iv) then
      Except.error ⟨"iv", "Encrypted messages must have an IV."⟩
    else if a.message_type == "group" && a.group == none then
      Except.error ⟨"group", "Group message must have a group."⟩
    else if a.message_type == "group"
        && !(match a.group with | some g => memberExists members user g | none => false) then
      Except.error ⟨"group", "You must be a member of this group to send messages."⟩
    else if a.message_type == "group" && !(a.recipient == none) then
      Except.error ⟨"recipient_id", "Group messages cannot have a recipient."⟩
    else if a.message_type == "private" && a.recipient == none then
      Except.error ⟨"recipient_id", "Private messages must have a recipient."⟩
    else if a.message_type == "private" && a.recipient == some user then
      Except.error ⟨"recipient_id", "Cannot send private message to yourself."⟩
    else if a.message_type == "private" && !(a.group == none) then
      Except.error ⟨"group", "Private messages cannot belong to a group."⟩
    else
      Except.ok a

/-- `MessageSerializer.validate`: content handling (defaulting for encrypted
drafts, requirement for plaintext drafts), then the envelope/shape checks. -/
def validate (members : List GroupMember) (user : Nat) (a : MessageDraft) :
    Except ValidationError MessageDraft :=
  if a.is_encrypted then
    validateShape members user (contentStep a)
  else if strPresent a.content then
    validateShape members user a
  else
    Except.error ⟨"content", "This field is required for non-encrypted messages."⟩

/-- `MessageViewSet.perform_create` + `MessageSerializer.create`: validate the
draft, then persist a new message row with a fresh id and the request user as
sender.  Validation failure persists nothing. -/
def send_message (s : State) (user : Nat) (a : MessageDraft) (now : Nat) :
    State × Except ValidationError Nat :=
  match validate s.members user a with
  | Except.error e => (s, Except.error e)
  | Except.ok a' =>
    let m : Message :=
      { id := s.nextId, message_type := a'.message_type, group := a'.group,
        sender := user, recipient := a'.recipient,
        content := a'.content.getD "", created_at := now,
        is_encrypted := a'.is_encrypted, encrypted_content := a'.encrypted_content,
        encrypted_key := a'.encrypted_key, encrypted_key_self := a'.encrypted_key_self,
        encrypted_keys := a'.encrypted_keys, iv := a'.iv, parent_message := none }
    ({ s with messages := s.messages ++ [m], nextId := s.nextId + 1 }, Except.ok m.id)

/-- `GroupSerializer.validate_name` + `create` and
`GroupViewSet.perform_create`: case-insensitive name uniqueness, then the
group row plus an admin membership row for the creator. -/
def create_group (s : State) (user : Nat) (name : String) : State × Except String Nat :=
  if s.groups.any (fun g => g.name.toLower == name.toLower) then
    (s, Except.error "Group with this name already exists")
  else
    ({ s with groups := s.groups ++ [⟨s.nextId, name, user⟩],
              members := s.members ++ [⟨user, s.nextId, true⟩],
              nextId := s.nextId + 1 }, Except.ok s.nextId)

/-- `GroupViewSet.join`: `get_or_create` of a non-admin membership row. -/
def join (s : State) (user gid : Nat) : State × Except String Bool :=
  match s.groups.find? (fun g => g.id == gid) with
  | none => (s, Except.error "Not found")
  | some _ =>
    if s.members.any (fun r => r.user == user && r.group == gid) then
      (s, Except.ok false)
    else
      ({ s with members := s.members ++ [⟨user, gid, false⟩] }, Except.ok true)

/-- `GroupViewSet.remove_member`: admin-only; the creator can never be
removed; otherwise the target's membership row is deleted. -/
def remove_member (s : State) (actor gid target : Nat) : State × Except String String :=
  match s.groups.find? (fun g => g.id == gid) with
  | none => (s, Except.error "Not found")
  | some g =>
    if !(IsGroupAdmin s.members actor gid) then
      (s, Except.error "You must be an admin of this group to perform this action.")
    else if g.created_by == target then
      (s, Except.error "Cannot remove the group creator")
    else if !(s.members.any fun r => r.user == target && r.group == gid) then
      (s, Except.error "User is not a member of this group")
    else
      ({ s with members := s.members.filter fun r => !(r.user == target && r.group == gid) },
        Except.ok "Member removed successfully")

/-- `GroupViewSet.promote_member`: admin-only; set the target's admin flag. -/
def promote_member (s : State) (actor gid target : Nat) : State × Except String String :=
  match s.groups.find? (fun g => g.id == gid) with
  | none => (s, Except.error "Not found")
  | some _ =>
    if !(IsGroupAdmin s.members actor gid) then
      (s, Except.error "You must be an admin of this group to perform this action.")
    else
      match s.members.find? (fun r => r.user == target && r.group == gid) with
      | none => (s, Except.error "User is not a member of this group")
      | some r =>
        if r.is_admin then
          (s, Except.ok "User is already an admin")
        else
          ({ s with members := s.members.map fun r =>
              if r.user == target && r.group == gid then { r with is_admin := true } else r },
            Except.ok "User promoted to admin successfully")

/-- `MessageViewSet.get_permissions` for `destroy`: `IsMessageSender`. -/
def destroy_permission (user : Nat) (obj : Message) : Bool :=
  IsMessageSender user obj

/-- `MessageViewSet.get_permissions` for `retrieve`: `CanAccessMessage`. -/
def retrieve_permission (s : State) (user : Nat) (obj : Message) : Bool :=
  CanAccessMessage s.members user obj

theorem mem_insertDesc {a m : Message} {l : List Message} :
    a ∈ insertDesc m l ↔ a = m ∨ a ∈ l := by
  induction l with
  | nil => simp [insertDesc]
  | cons x xs ih =>
    simp only [insertDesc]
    split
    · simp only [List.mem_cons]
    · simp only [List.mem_cons, ih]
      tauto

theorem insertDesc_perm (m : Message) (l : List Message) :
    List.Perm (insertDesc m l) (m :: l) := by
  induction l with
  | nil => simp [insertDesc]
  | cons x xs ih =>
    simp only [insertDesc]
    split
    · exact List.Perm.refl _
    · exact (ih.cons x).trans (List.Perm.swap m x xs)

theorem sortByCreatedDesc_perm (l : List Message) :
    List.Perm (sortByCreatedDesc l) l := by
  induction l with
  | nil => exact List.Perm.refl _
  | cons x xs ih =>
    have h : sortByCreatedDesc (x :: xs) = insertDesc x (sortByCreatedDesc xs) := rfl
    rw [h]
    exact (insertDesc_perm x _).trans (ih.cons x)

theorem sortedDesc_insertDesc (m : Message) (l : List Message) (h : SortedDesc l) :
    SortedDesc (insertDesc m l) := by
  induction l with
  | nil => simp [insertDesc, SortedDesc]
  | cons x xs ih =>
    rcases List.pairwise_cons.mp h with ⟨hx, hxs⟩
    simp only [insertDesc]
    split
    · rename_i hle
      have hmx : x.created_at ≤ m.created_at := by simpa [msgLe] using hle
      refine List.pairwise_cons.mpr ⟨?_, h⟩
      intro b hb
      rcases List.mem_cons.mp hb with rfl | hb
      · exact hmx
      · exact le_trans (hx b hb) hmx
    · rename_i hle
      have hxm : m.created_at ≤ x.created_at := by
        have h' : ¬ (x.created_at ≤ m.created_at) := by simpa [msgLe] using hle
        exact le_of_not_le h'
      refine List.pairwise_cons.mpr ⟨?_, ih hxs⟩
      intro b hb
      rcases mem_insertDesc.mp hb with rfl | hb
      · exact hxm
      · exact hx b hb

theorem sortedDesc_sortByCreatedDesc (l : List Message) :
    SortedDesc (sortByCreatedDesc l) := by
  induction l with
  | nil => simp [sortByCreatedDesc, SortedDesc]
  | cons x xs ih => exact sortedDesc_insertDesc x _ ih

/-- First of two distinct messages sharing a creation timestamp. -/
def tieMsgA : Message :=
  ⟨2, "private", none, 0, some 1, "a", 5, false, none, none, none, none, none, none⟩

/-- Second of two distinct messages sharing a creation timestamp. -/
def tieMsgB : Message :=
  ⟨1, "private", none, 0, some 1, "b", 5, false, none, none, none, none, none, none⟩

/-- C7 counterexample: the ordering key is the creation timestamp alone.  For
two distinct messages with equal timestamps the comparator accepts both
relative orders — both [A, B] and [B, A] are sorted in the code's sense even
though B's identifier is smaller — so ties are not broken by identifier and
the list order is not uniquely determined. -/
theorem c7_counterexample :
    tieMsgA.created_at = tieMsgB.created_at ∧ tieMsgB.id < tieMsgA.id ∧ tieMsgA ≠ tieMsgB
    ∧ msgLe tieMsgA tieMsgB = true ∧ msgLe tieMsgB tieMsgA = true
    ∧ SortedDesc [tieMsgA, tieMsgB] ∧ SortedDesc [tieMsgB, tieMsgA]
    ∧ [tieMsgA, tieMsgB] ≠ [tieMsgB, tieMsgA] := by
  refine ⟨rfl, by decide, by decide, by decide, by decide, ?_, ?_, by decide⟩
  · simp [SortedDesc, tieMsgA, tieMsgB]
  · simp [SortedDesc, tieMsgB, tieMsgA]

/-- C7 amended: the default message-list ordering is newest first by creation
timestamp only, with no identifier tie-break; the queryset (without filter
parameters) is a permutation of the access-filtered message set, sorted so
that creation timestamps are non-increasing. -/
theorem c7_list_ordering (s : State) (u : Nat) (p : QueryParams) :
    SortedDesc (get_queryset s u p)
    ∧ List.Perm (get_queryset s u noParams) (s.messages.filter (accessibleFilter s.members u)) := by
  constructor
  · exact sortedDesc_sortByCreatedDesc _
  · exact sortByCreatedDesc_perm _

/-- The private message of the C6 counterexample (user 0 → user 1). -/
def c6Msg : Message :=
  ⟨10, "private", none, 0, some 1, "hi", 1, false, none, none, none, none, none, none⟩

/-- Store holding only `c6Msg`. -/
def c6State : State := ⟨[], [], [c6Msg], [], [], 11⟩

/-- C6 counterexample: deletion does not use the shared access predicate.
The recipient (user 1) of a private message satisfies the retrieval predicate
`CanAccessMessage` but fails the deletion predicate `IsMessageSender`, so
"v may delete m iff access(v, m)" is false. -/
theorem c6_counterexample :
    retrieve_permission c6State 1 c6Msg = true ∧ destroy_permission 1 c6Msg = false := by
  decide

/-- C6 amended: deletion is permitted iff the viewer is the message's sender
(`IsMessageSender`), while single-message retrieval uses the access
predicate; in particular a private message's recipient who is not its sender
can retrieve but not delete it. -/
theorem c6_destroy_is_sender_only (s : State) (v : Nat) (m : Message) :
    (destroy_permission v m = true ↔ m.sender = v)
    ∧ (m.message_type = "private" → m.recipient = some v → v ≠ m.sender →
        retrieve_permission s v m = true ∧ destroy_permission v m = false) := by
  constructor
  · simp [destroy_permission, IsMessageSender]
  · intro hp hr hv
    constructor
    · simp [retrieve_permission, CanAccessMessage, hp, hr]
    · have h : m.sender ≠ v := Ne.symm hv
      simp [destroy_permission, IsMessageSender, h]

/-- Concrete instantiation of the amended C6 theorem at the counterexample
store. -/
theorem c6_destroy_is_sender_only_witness :
    retrieve_permission c6State 1 c6Msg = true ∧ destroy_permission 1 c6Msg = false :=
  (c6_destroy_is_sender_only c6State 1 c6Msg).2 rfl rfl (by decide)

/-- C10: `mark_read` called with an empty id list returns the 400 error
"No message IDs provided" before any filtering or receipt creation, leaving
the store untouched. -/
theorem c10_mark_read_empty (s : State) (u : Nat) :
    mark_read s u [] = (s, MarkReadResult.error "No message IDs provided") := rfl

/-- C1: for private messages access holds exactly for sender and recipient;
for group messages access holds exactly when a membership row for the viewer
and the message's group currently exists, and after a successful `leave` of
that group the viewer's access to every message of the group is false. -/
theorem c1_access_predicate (s : State) (v : Nat) (m : Message) :
    (m.message_type = "private" →
      (CanAccessMessage s.members v m = true ↔ (v = m.sender ∨ m.recipient = some v)))
    ∧ (m.message_type = "group" →
      (CanAccessMessage s.members v m = true ↔
        ∃ r ∈ s.members, r.user = v ∧ some r.group = m.group))
    ∧ (∀ gid s' msg, m.message_type = "group" → m.group = some gid →
        leave s v gid = (s', Except.ok msg) →
        CanAccessMessage s'.members v m = false) := by
  refine ⟨?_, ?_, ?_⟩
  · intro hp
    simp [CanAccessMessage, hp]
  · intro hg
    simp [CanAccessMessage, hg, List.any_eq_true, Bool.and_eq_true, beq_iff_eq]
  · intro gid s' msg hg hgid hleave
    simp only [leave] at hleave
    split at hleave
    · exact absurd (congrArg Prod.snd hleave) (by simp)
    · split at hleave
      · exact absurd (congrArg Prod.snd hleave) (by simp)
      · split at hleave
        · exact absurd (congrArg Prod.snd hleave) (by simp)
        · split at hleave
          · have hs' : s'.members = s.members.filter fun r => !(r.user == v && r.group == gid) := by
              have h := congrArg Prod.fst hleave
              simp only at h
              rw [← h]
            rw [hs']
            simp only [CanAccessMessage, hg]
            rw [if_pos (by simp)]
            rw [List.any_eq_false]
            intro r hr
            rcases List.mem_filter.mp hr with ⟨_, hkeep⟩
            simp only [Bool.not_eq_true', Bool.and_eq_false_iff] at hkeep
            simp only [Bool.and_eq_true, beq_iff_eq, hgid, not_and]
            intro hu hgrp
            have hrg : r.group = gid := by injection hgrp
            rcases hkeep with hk | hk
            · exact absurd (beq_iff_eq.mpr hu) (by simp [hk])
            · exact absurd (beq_iff_eq.mpr hrg) (by simp [hk])
          · exact absurd (congrArg Prod.snd hleave) (by simp)

/-- Concrete instantiation of the C1 theorem: in a store with membership row
(user 1, group 7), user 1 is sender-or-recipient of a concrete private
message, hence has access. -/
theorem c1_access_predicate_witness :
    CanAccessMessage [⟨1, 7, false⟩] 1
      ⟨10, "private", none, 0, some 1, "hi", 5, false, none, none, none, none, none, none⟩ = true := by
  have h := (c1_access_predicate
    ⟨[], [⟨1, 7, false⟩], [], [], [], 0⟩ 1
    ⟨10, "private", none, 0, some 1, "hi", 5, false, none, none, none, none, none, none⟩).1 rfl
  exact h.mpr (Or.inr rfl)

theorem get_queryset_noParams (s : State) (u : Nat) :
    get_queryset s u noParams
      = sortByCreatedDesc (s.messages.filter (accessibleFilter s.members u)) := rfl

theorem get_queryset_congr (s1 s2 : State) (u : Nat) (p : QueryParams)
    (hm : s1.messages = s2.messages) (hmem : s1.members = s2.members) :
    get_queryset s1 u p = get_queryset s2 u p := by
  simp only [get_queryset, hm, hmem]

/-- `MessageReaction.objects.filter(message=mid, user=user, emoji=emoji).exists()`. -/
def reactionExists (s : State) (mid user : Nat) (emoji : String) : Bool :=
  s.reactions.any fun r => r.message == mid && r.user == user && r.emoji == emoji

/-- n successive invocations of `react` by the same (user, message, emoji). -/
def reactIter (s : State) (user mid : Nat) (emoji : String) : Nat → State
  | 0 => s
  | n + 1 => (react (reactIter s user mid emoji n) user mid emoji).1

theorem react_state_shape (s : State) (u mid : Nat) (e : String) :
    (react s u mid e).1.messages = s.messages ∧ (react s u mid e).1.members = s.members := by
  cases hf : (get_queryset s u noParams).find? (fun m => m.id == mid) with
  | none => simp [react, hf]
  | some m =>
    by_cases he : (e == "") = true
    · simp [react, hf, he]
    · by_cases hx : (s.reactions.any fun r => r.message == m.id && r.user == u && r.emoji == e) = true
      · simp [react, hf, he, hx]
      · simp [react, hf, he, hx]

theorem reactIter_shape (s : State) (u mid : Nat) (e : String) (n : Nat) :
    (reactIter s u mid e n).messages = s.messages
      ∧ (reactIter s u mid e n).members = s.members := by
  induction n with
  | zero => exact ⟨rfl, rfl⟩
  | succ n ih =>
    have h := react_state_shape (reactIter s u mid e n) u mid e
    exact ⟨h.1.trans ih.1, h.2.trans ih.2⟩

theorem react_eval (t : State) (u mid : Nat) (e : String) (m' : Message)
    (hfind : (get_queryset t u noParams).find? (fun x => x.id == mid) = some m')
    (hid : m'.id = mid) (he : (e == "") = false) :
    react t u mid e =
      (if reactionExists t mid u e then
        ({ t with reactions := t.reactions.filter fun r =>
            !(r.message == mid && r.user == u && r.emoji == e) }, Except.ok "removed")
      else
        ({ t with reactions := t.reactions ++ [⟨mid, u, e⟩] }, Except.ok "added")) := by
  simp only [react, hfind, hid, he, reactionExists, Bool.false_eq_true, if_false]

theorem reactionExists_append (t : State) (mid u : Nat) (e : String) :
    reactionExists { t with reactions := t.reactions ++ [⟨mid, u, e⟩] } mid u e = true := by
  simp [reactionExists]

theorem reactionExists_remove (t : State) (mid u : Nat) (e : String) :
    reactionExists { t with reactions := t.reactions.filter fun r =>
      !(r.message == mid && r.user == u && r.emoji == e) } mid u e = false := by
  simp only [reactionExists]
  rw [List.any_eq_false]
  intro r hr
  rcases List.mem_filter.mp hr with ⟨_, hk⟩
  simp only [Bool.not_eq_true'] at hk
  simp [hk]

/-- C4: the reaction toggle law.  For an accessible message with no existing
(message, user, emoji) row, after n calls of `react` the row exists iff n is
odd, and the following call reports "added" when the row is absent (n even)
and "removed" when it is present (n odd). -/
theorem c4_reaction_toggle (s : State) (u : Nat) (m : Message) (e : String)
    (hm : m ∈ s.messages) (hacc : accessibleFilter s.members u m = true)
    (he : (e == "") = false) (h0 : reactionExists s m.id u e = false) :
    ∀ n, (reactionExists (reactIter s u m.id e n) m.id u e = decide (n % 2 = 1))
      ∧ ((react (reactIter s u m.id e n) u m.id e).2 =
          Except.ok (if n % 2 = 0 then "added" else "removed")) := by
  have hmemq : m ∈ get_queryset s u noParams := by
    rw [get_queryset_noParams]
    exact (sortByCreatedDesc_perm _).mem_iff.mpr (List.mem_filter.mpr ⟨hm, hacc⟩)
  have hsome : ((get_queryset s u noParams).find? (fun x => x.id == m.id)).isSome := by
    rw [List.find?_isSome]
    exact ⟨m, hmemq, by simp⟩
  obtain ⟨m', hfind⟩ := Option.isSome_iff_exists.mp hsome
  have hid : m'.id = m.id := by
    have h := List.find?_some hfind
    simpa using h
  have hq : ∀ n, get_queryset (reactIter s u m.id e n) u noParams = get_queryset s u noParams :=
    fun n => get_queryset_congr _ _ u noParams
      (reactIter_shape s u m.id e n).1 (reactIter_shape s u m.id e n).2
  have hfindIter : ∀ n,
      (get_queryset (reactIter s u m.id e n) u noParams).find? (fun x => x.id == m.id) = some m' :=
    fun n => by rw [hq n]; exact hfind
  have hex : ∀ n, reactionExists (reactIter s u m.id e n) m.id u e = decide (n % 2 = 1) := by
    intro n
    induction n with
    | zero => simpa using h0
    | succ n ih =>
      have heval := react_eval (reactIter s u m.id e n) u m.id e m' (hfindIter n) hid he
      show reactionExists (react (reactIter s u m.id e n) u m.id e).1 m.id u e = _
      rw [heval, ih]
      by_cases hodd : n % 2 = 1
      · have h1 : (n + 1) % 2 ≠ 1 := by omega
        rw [if_pos (show (decide (n % 2 = 1)) = true by simp [hodd])]
        have h2 : decide ((n + 1) % 2 = 1) = false := by simp [h1]
        rw [h2]
        exact reactionExists_remove _ _ _ _
      · have h1 : (n + 1) % 2 = 1 := by omega
        rw [if_neg (show ¬ (decide (n % 2 = 1)) = true by simp [hodd])]
        have h2 : decide ((n + 1) % 2 = 1) = true := by simp [h1]
        rw [h2]
        exact reactionExists_append _ _ _ _
  intro n
  refine ⟨hex n, ?_⟩
  have heval := react_eval (reactIter s u m.id e n) u m.id e m' (hfindIter n) hid he
  rw [heval, hex n]
  by_cases hodd : n % 2 = 1
  · have h0' : n % 2 ≠ 0 := by omega
    rw [if_pos (show (decide (n % 2 = 1)) = true by simp [hodd])]
    simp [h0']
  · have h0' : n % 2 = 0 := by omega
    rw [if_neg (show ¬ (decide (n % 2 = 1)) = true by simp [hodd])]
    simp [h0']

/-- The private message of the C4 witness store (user 0 → user 1). -/
def c4Msg : Message :=
  ⟨10, "private", none, 0, some 1, "hi", 1, false, none, none, none, none, none, none⟩

/-- Store holding only `c4Msg`, no reactions. -/
def c4State : State := ⟨[], [], [c4Msg], [], [], 11⟩

/-- Concrete instantiation of the C4 theorem: after three `react` calls by
user 1 the reaction exists and the fourth call reports "removed". -/
theorem c4_reaction_toggle_witness :
    reactionExists (reactIter c4State 1 c4Msg.id "x" 3) c4Msg.id 1 "x" = decide (3 % 2 = 1)
      ∧ (react (reactIter c4State 1 c4Msg.id "x" 3) 1 c4Msg.id "x").2 =
          Except.ok (if 3 % 2 = 0 then "added" else "removed") :=
  c4_reaction_toggle c4State 1 c4Msg "x" (by simp [c4State])
    (by decide) (by decide) (by decide) 3

theorem beq_priv_group : ("private" == "group") = false := by decide

theorem beq_priv_priv : ("private" == "private") = true := by decide

theorem contentStep_fields (a : MessageDraft) :
    (contentStep a).message_type = a.message_type
    ∧ (contentStep a).is_encrypted = a.is_encrypted
    ∧ (contentStep a).encrypted_content = a.encrypted_content
    ∧ (contentStep a).encrypted_key = a.encrypted_key
    ∧ (contentStep a).encrypted_key_self = a.encrypted_key_self
    ∧ (contentStep a).iv = a.iv := by
  by_cases hc : strPresent a.content = true <;> simp [contentStep, hc]

theorem validateShape_private_encrypted_ok (members : List GroupMember) (u : Nat)
    (b b' : MessageDraft) (hp : b.message_type = "private") (he : b.is_encrypted = true)
    (hok : validateShape members u b = Except.ok b') :
    strPresent b.encrypted_content = true ∧ strPresent b.encrypted_key = true
      ∧ strPresent b.encrypted_key_self = true ∧ strPresent b.iv = true := by
  cases h1 : strPresent b.encrypted_content with
  | false => simp [validateShape, hp, he, beq_priv_group, beq_priv_priv, h1] at hok
  | true =>
    cases h2 : strPresent b.encrypted_key with
    | false => simp [validateShape, hp, he, beq_priv_group, beq_priv_priv, h1, h2] at hok
    | true =>
      cases h3 : strPresent b.encrypted_key_self with
      | false => simp [validateShape, hp, he, beq_priv_group, beq_priv_priv, h1, h2, h3] at hok
      | true =>
        cases h4 : strPresent b.iv with
        | false => simp [validateShape, hp, he, beq_priv_group, beq_priv_priv, h1, h2, h3, h4] at hok
        | true => exact ⟨rfl, rfl, rfl, rfl⟩

theorem validateShape_missing_key_self (members : List GroupMember) (u : Nat)
    (b : MessageDraft) (hp : b.message_type = "private") (he : b.is_encrypted = true)
    (h1 : strPresent b.encrypted_content = true) (h2 : strPresent b.encrypted_key = true)
    (h3 : strPresent b.encrypted_key_self = false) :
    validateShape members u b = Except.error
      ⟨"encrypted_key_self", "Encrypted private messages must have encrypted_key_self."⟩ := by
  simp [validateShape, hp, he, beq_priv_group, beq_priv_priv, h1, h2, h3]

/-- C5: encrypted private drafts.  (a) Validation succeeds only when
`encrypted_content`, `encrypted_key`, `encrypted_key_self` and `iv` are all
present and non-empty; (b) with the first two present and
`encrypted_key_self` missing, validation fails naming `encrypted_key_self`;
(c) any validation failure happens before persistence: the message table is
unchanged. -/
theorem c5_encrypted_private_envelope (s : State) (u : Nat) (a : MessageDraft)
    (hp : a.message_type = "private") (he : a.is_encrypted = true) :
    (∀ a', validate s.members u a = Except.ok a' →
      strPresent a.encrypted_content = true ∧ strPresent a.encrypted_key = true
        ∧ strPresent a.encrypted_key_self = true ∧ strPresent a.iv = true)
    ∧ (strPresent a.encrypted_content = true → strPresent a.encrypted_key = true →
        strPresent a.encrypted_key_self = false →
        validate s.members u a = Except.error
          ⟨"encrypted_key_self", "Encrypted private messages must have encrypted_key_self."⟩)
    ∧ (∀ err, validate s.members u a = Except.error err →
        ∀ now, send_message s u a now = (s, Except.error err)) := by
  obtain ⟨f1, f2, f3, f4, f5, f6⟩ := contentStep_fields a
  have hval : validate s.members u a = validateShape s.members u (contentStep a) := by
    simp [validate, he]
  refine ⟨?_, ?_, ?_⟩
  · intro a' hok
    rw [hval] at hok
    have h := validateShape_private_encrypted_ok s.members u (contentStep a) a'
      (f1.trans hp) (f2.trans he) hok
    rw [f3, f4, f5, f6] at h
    exact h
  · intro h1 h2 h3
    rw [hval]
    exact validateShape_missing_key_self s.members u (contentStep a)
      (f1.trans hp) (f2.trans he) (f3 ▸ h1) (f4 ▸ h2) (f5 ▸ h3)
  · intro err herr now
    simp [send_message, herr]

/-- The C5 witness draft: encrypted private message missing
`encrypted_key_self`. -/
def c5Draft : MessageDraft :=
  ⟨"private", none, some 1, none, true, some "ct", some "k", none, none, some "iv"⟩

/-- Concrete instantiation of the C5 theorem: validating `c5Draft` fails
naming `encrypted_key_self`, and nothing is persisted. -/
theorem c5_encrypted_private_envelope_witness :
    validate ([] : List GroupMember) 0 c5Draft = Except.error
      ⟨"encrypted_key_self", "Encrypted private messages must have encrypted_key_self."⟩
    ∧ send_message ⟨[], [], [], [], [], 0⟩ 0 c5Draft 1
        = (⟨[], [], [], [], [], 0⟩, Except.error
            ⟨"encrypted_key_self", "Encrypted private messages must have encrypted_key_self."⟩) := by
  have h := c5_encrypted_private_envelope ⟨[], [], [], [], [], 0⟩ 0 c5Draft rfl rfl
  have herr := h.2.1 (by decide) (by decide) (by decide)
  exact ⟨herr, h.2.2 _ herr 1⟩

/-- Number of receipt rows for (message, user). -/
def receiptCount (s : State) (mid u : Nat) : Nat :=
  (s.receipts.filter fun r => r.message == mid && r.user == u).length

theorem markReadLoop_shape (u : Nat) (ms : List Message) (st : State) (cnt : Nat)
    (ids : List Nat) :
    ((markReadLoop u ms st cnt ids).1.messages = st.messages
      ∧ (markReadLoop u ms st cnt ids).1.members = st.members)
    ∧ ∃ ext, (markReadLoop u ms st cnt ids).1.receipts = st.receipts ++ ext := by
  induction ms generalizing st cnt ids with
  | nil => exact ⟨⟨rfl, rfl⟩, [], by simp [markReadLoop]⟩
  | cons m rest ih =>
    simp only [markReadLoop]
    split
    · exact ih st cnt ids
    · obtain ⟨⟨h1, h2⟩, ext, h3⟩ :=
        ih { st with receipts := st.receipts ++ [⟨m.id, u⟩] } (cnt + 1) (ids ++ [m.id])
      refine ⟨⟨h1, h2⟩, ⟨m.id, u⟩ :: ext, ?_⟩
      rw [h3]
      simp

theorem markReadLoop_count (u : Nat) (ms : List Message) (st : State) (cnt : Nat)
    (ids : List Nat) :
    (markReadLoop u ms st cnt ids).1.receipts.length + cnt
      = st.receipts.length + (markReadLoop u ms st cnt ids).2.1 := by
  induction ms generalizing st cnt ids with
  | nil => simp [markReadLoop]
  | cons m rest ih =>
    simp only [markReadLoop]
    split
    · exact ih st cnt ids
    · have h := ih { st with receipts := st.receipts ++ [⟨m.id, u⟩] } (cnt + 1) (ids ++ [m.id])
      simp only [List.length_append, List.length_cons, List.length_nil] at h
      omega

theorem markReadLoop_marks (u : Nat) (ms : List Message) (st : State) (cnt : Nat)
    (ids : List Nat) :
    ∀ m ∈ ms, (markReadLoop u ms st cnt ids).1.receipts.any
      (fun r => r.message == m.id && r.user == u) = true := by
  induction ms generalizing st cnt ids with
  | nil => intro m hm; cases hm
  | cons x rest ih =>
    intro m hm
    simp only [markReadLoop]
    split
    · rename_i halready
      rcases List.mem_cons.mp hm with rfl | hm'
      · obtain ⟨_, ext, hext⟩ := markReadLoop_shape u rest st cnt ids
        rw [hext, List.any_append]
        simp [halready]
      · exact ih st cnt ids m hm'
    · rcases List.mem_cons.mp hm with rfl | hm'
      · obtain ⟨_, ext, hext⟩ :=
          markReadLoop_shape u rest { st with receipts := st.receipts ++ [⟨m.id, u⟩] }
            (cnt + 1) (ids ++ [m.id])
        rw [hext]
        simp
      · exact ih _ (cnt + 1) (ids ++ [x.id]) m hm'

theorem markReadLoop_noop (u : Nat) :
    ∀ (ms : List Message) (st : State) (cnt : Nat) (ids : List Nat),
    (∀ m ∈ ms, st.receipts.any (fun r => r.message == m.id && r.user == u) = true) →
    markReadLoop u ms st cnt ids = (st, cnt, ids) := by
  intro ms
  induction ms with
  | nil => intro st cnt ids _; simp [markReadLoop]
  | cons x rest ih =>
    intro st cnt ids h
    simp only [markReadLoop]
    rw [if_pos (h x (List.mem_cons_self x rest))]
    exact ih st cnt ids (fun m hm => h m (List.mem_cons_of_mem x hm))

theorem nodup_eq_singleton {l : List Message} {m : Message}
    (hnd : l.Nodup) (hm : m ∈ l) (hall : ∀ x ∈ l, x = m) : l = [m] := by
  cases l with
  | nil => cases hm
  | cons x xs =>
    have hx : x = m := hall x (List.mem_cons_self x xs)
    subst hx
    cases xs with
    | nil => rfl
    | cons y ys =>
      have hy : y = x := hall y (by simp)
      rcases List.pairwise_cons.mp hnd with ⟨hne, _⟩
      exact (hne y (List.mem_cons_self y ys) hy.symm).elim

theorem mark_read_single_filter (s : State) (u : Nat) (m : Message)
    (hnodup : (s.messages.map (fun x => x.id)).Nodup)
    (hm : m ∈ s.messages) (hacc : accessibleFilter s.members u m = true) :
    (get_queryset s u noParams).filter (fun x => [m.id].contains x.id) = [m] := by
  have hperm := sortByCreatedDesc_perm (s.messages.filter (accessibleFilter s.members u))
  have hQ := get_queryset_noParams s u
  have hmemQ : m ∈ get_queryset s u noParams := by
    rw [hQ]
    exact hperm.mem_iff.mpr (List.mem_filter.mpr ⟨hm, hacc⟩)
  have hndmsg : s.messages.Nodup := hnodup.of_map
  have hndQ : (get_queryset s u noParams).Nodup := by
    rw [hQ]
    exact hperm.nodup_iff.mpr (hndmsg.filter _)
  apply nodup_eq_singleton (hndQ.filter _) (List.mem_filter.mpr ⟨hmemQ, by simp⟩)
  intro x hx
  rcases List.mem_filter.mp hx with ⟨hxQ, hxid⟩
  have hxmsg : x ∈ s.messages := by
    rw [hQ] at hxQ
    exact (List.mem_filter.mp (hperm.mem_iff.mp hxQ)).1
  have hxid' : x.id = m.id := by simpa using hxid
  exact List.inj_on_of_nodup_map hnodup hxmsg hm hxid'

/-- C3: `mark_read` is idempotent and its marked count equals the number of
newly created receipts.  For an accessible message m with at most one
existing receipt (the unique constraint), after `markRead(u, [m])` exactly
one receipt row for (m, u) exists; the second identical call changes nothing
and reports a marked count of zero; and for any id batch the new receipt
count of the store equals the reported marked count. -/
theorem c3_mark_read_idempotent (s : State) (u : Nat) (m : Message)
    (hnodup : (s.messages.map (fun x => x.id)).Nodup)
    (hm : m ∈ s.messages) (hacc : accessibleFilter s.members u m = true)
    (hc : receiptCount s m.id u ≤ 1) :
    receiptCount (mark_read s u [m.id]).1 m.id u = 1
    ∧ mark_read (mark_read s u [m.id]).1 u [m.id]
        = ((mark_read s u [m.id]).1, MarkReadResult.ok 0 [])
    ∧ (∀ ids s' c r, mark_read s u ids = (s', MarkReadResult.ok c r) →
        s'.receipts.length = s.receipts.length + c) := by
  have hfilter := mark_read_single_filter s u m hnodup hm hacc
  have hrun1 : mark_read s u [m.id]
      = ((markReadLoop u [m] s 0 []).1,
          MarkReadResult.ok (markReadLoop u [m] s 0 []).2.1 (markReadLoop u [m] s 0 []).2.2) := by
    show ((markReadLoop u ((get_queryset s u noParams).filter (fun x => [m.id].contains x.id)) s 0 []).1,
        MarkReadResult.ok _ _) = _
    rw [hfilter]
  have hgen : ∀ ids s' c r, mark_read s u ids = (s', MarkReadResult.ok c r) →
      s'.receipts.length = s.receipts.length + c := by
    intro ids s' c r hmr
    by_cases hids : ids.isEmpty = true
    · simp only [mark_read, hids, if_true] at hmr
      exact absurd (congrArg Prod.snd hmr) (by simp)
    · simp only [mark_read] at hmr
      rw [if_neg hids] at hmr
      have h1 := congrArg Prod.fst hmr
      have h2 := congrArg Prod.snd hmr
      simp only at h1 h2
      injection h2 with hcnt hids'
      have hcount := markReadLoop_count u
        ((get_queryset s u noParams).filter (fun x => ids.contains x.id)) s 0 []
      rw [h1, hcnt] at hcount
      omega
  by_cases halready : s.receipts.any (fun r => r.message == m.id && r.user == u) = true
  · have hloop : markReadLoop u [m] s 0 [] = (s, 0, []) := by
      simp only [markReadLoop]
      rw [if_pos halready]
    have hs1 : (mark_read s u [m.id]).1 = s := by rw [hrun1, hloop]
    have hcount1 : receiptCount s m.id u = 1 := by
      have hpos : 0 < receiptCount s m.id u := by
        rcases List.any_eq_true.mp halready with ⟨r, hr, hpr⟩
        have hmem : r ∈ s.receipts.filter (fun r => r.message == m.id && r.user == u) :=
          List.mem_filter.mpr ⟨hr, hpr⟩
        simp only [receiptCount]
        exact List.length_pos.mpr (List.ne_nil_of_mem hmem)
      omega
    refine ⟨by rw [hs1]; exact hcount1, ?_, hgen⟩
    rw [hs1, hrun1, hloop]
  · have hloop : markReadLoop u [m] s 0 []
        = ({ s with receipts := s.receipts ++ [⟨m.id, u⟩] }, 1, [m.id]) := by
      simp only [markReadLoop]
      rw [if_neg halready]
      simp [markReadLoop]
    have hs1 : (mark_read s u [m.id]).1 = { s with receipts := s.receipts ++ [⟨m.id, u⟩] } := by
      rw [hrun1, hloop]
    have hcount0 : receiptCount s m.id u = 0 := by
      have hany : s.receipts.any (fun r => r.message == m.id && r.user == u) = false :=
        Bool.eq_false_iff.mpr halready
      have hnil : s.receipts.filter (fun r => r.message == m.id && r.user == u) = [] := by
        rw [List.filter_eq_nil_iff]
        intro r hr
        have := List.any_eq_false.mp hany r hr
        simpa using this
      simp [receiptCount, hnil]
    have hcount1 : receiptCount (mark_read s u [m.id]).1 m.id u = 1 := by
      rw [hs1]
      simp only [receiptCount, List.filter_append] at hcount0 ⊢
      rw [List.length_append]
      simp [hcount0]
    refine ⟨hcount1, ?_, hgen⟩
    set s1 : State := { s with receipts := s.receipts ++ [⟨m.id, u⟩] } with hs1def
    have hfilter1 : (get_queryset s1 u noParams).filter (fun x => [m.id].contains x.id) = [m] := by
      rw [get_queryset_congr s1 s u noParams rfl rfl]
      exact hfilter
    have hrun2 : mark_read s1 u [m.id]
        = ((markReadLoop u [m] s1 0 []).1,
            MarkReadResult.ok (markReadLoop u [m] s1 0 []).2.1 (markReadLoop u [m] s1 0 []).2.2) := by
      show ((markReadLoop u ((get_queryset s1 u noParams).filter (fun x => [m.id].contains x.id)) s1 0 []).1,
          MarkReadResult.ok _ _) = _
      rw [hfilter1]
    have hallread : ∀ x ∈ [m], s1.receipts.any (fun r => r.message == x.id && r.user == u) = true := by
      intro x hx
      rcases List.mem_cons.mp hx with rfl | hx'
      · simp [hs1def]
      · cases hx'
    have hloop2 := markReadLoop_noop u [m] s1 0 [] hallread
    rw [hs1, hrun2, hloop2]

/-- The C3 witness store: one private message (user 0 → user 1), no
receipts. -/
def c3State : State :=
  ⟨[], [], [⟨10, "private", none, 0, some 1, "hi", 1, false, none, none, none, none, none, none⟩],
    [], [], 11⟩

/-- The message of the C3 witness store. -/
def c3Msg : Message :=
  ⟨10, "private", none, 0, some 1, "hi", 1, false, none, none, none, none, none, none⟩

/-- Concrete instantiation of the C3 theorem at `c3State`. -/
theorem c3_mark_read_idempotent_witness :
    receiptCount (mark_read c3State 1 [c3Msg.id]).1 c3Msg.id 1 = 1
    ∧ mark_read (mark_read c3State 1 [c3Msg.id]).1 1 [c3Msg.id]
        = ((mark_read c3State 1 [c3Msg.id]).1, MarkReadResult.ok 0 []) :=
  ⟨(c3_mark_read_idempotent c3State 1 c3Msg (by decide) (by simp [c3State, c3Msg])
      (by decide) (by decide)).1,
    (c3_mark_read_idempotent c3State 1 c3Msg (by decide) (by simp [c3State, c3Msg])
      (by decide) (by decide)).2.1⟩

/-- The C2 counterexample store: its only message is authored by user 0 (a
private message to user 1); there are no receipts. -/
def c2State : State :=
  ⟨[], [], [⟨10, "private", none, 0, some 1, "hi", 1, false, none, none, none, none, none, none⟩],
    [], [], 11⟩

/-- C2 counterexample: the `unread` endpoint reports unread state for user 0
without excluding messages user 0 authored.  Every message of the store is
authored by user 0, yet `unread` reports one unread message (the user's own)
— so "the unread computation excludes every message authored by u" fails for
this operation. -/
theorem c2_counterexample :
    (∀ m ∈ c2State.messages, m.sender = 0) ∧ unread c2State 0 = (1, [10]) := by
  constructor
  · decide
  · decide

/-- An extra self-authored message for the C2 witness. -/
def c2Extra : Message :=
  ⟨12, "private", none, 0, some 1, "more", 2, false, none, none, none, none, none, none⟩

/-- C2 amended: the unread-counts computation
(`_get_unread_counts_for_user`, backing `unread_counts` and the broadcast
payloads) ignores every message authored by u — appending a message with
sender u leaves its result unchanged — and its reported total equals the sum
of the per-group and per-counterpart counts.  (The `unread` id-listing
endpoint, by contrast, does not exclude u's own messages: see the
counterexample.) -/
theorem c2_unread_counts (s : State) (u : Nat) (m : Message) (hm : m.sender = u) :
    get_unread_counts_for_user { s with messages := s.messages ++ [m] } u
      = get_unread_counts_for_user s u
    ∧ (get_unread_counts_for_user s u).total_unread
        = ((get_unread_counts_for_user s u).groups.map (fun p => p.2)).sum
          + ((get_unread_counts_for_user s u).users.map (fun p => p.2)).sum := by
  constructor
  · have helig : unreadEligible { s with messages := s.messages ++ [m] } u
        = unreadEligible s u := by
      simp only [unreadEligible, List.filter_append]
      simp [hm]
    simp only [get_unread_counts_for_user, helig, readIds, userGroups]
  · rfl

/-- Concrete instantiation of the amended C2 theorem: appending a
self-authored message to the counterexample store does not change user 0's
unread counts. -/
theorem c2_unread_counts_witness :
    get_unread_counts_for_user { c2State with messages := c2State.messages ++ [c2Extra] } 0
      = get_unread_counts_for_user c2State 0 :=
  (c2_unread_counts c2State 0 c2Extra rfl).1

/-- The group-membership mutations exposed by the views. -/
inductive GroupOp where
  | createGroup (user : Nat) (name : String)
  | joinGroup (user : Nat) (gid : Nat)
  | leaveGroup (user : Nat) (gid : Nat)
  | removeMember (actor : Nat) (gid : Nat) (target : Nat)
  | promoteMember (actor : Nat) (gid : Nat) (target : Nat)
deriving DecidableEq, Repr

/-- The state effect of a group operation. -/
def applyGroupOp (s : State) : GroupOp → State
  | GroupOp.createGroup u n => (create_group s u n).1
  | GroupOp.joinGroup u g => (join s u g).1
  | GroupOp.leaveGroup u g => (leave s u g).1
  | GroupOp.removeMember a g t => (remove_member s a g t).1
  | GroupOp.promoteMember a g t => (promote_member s a g t).1

/-- Primary-key discipline for groups: ids are unique and below the
allocator. -/
def GroupIdsOk (s : State) : Prop :=
  (∀ g ∈ s.groups, g.id < s.nextId) ∧ (s.groups.map (fun g => g.id)).Nodup

/-- The creator-membership invariant: every existing group has a membership
row for its creator with the admin flag set. -/
def CreatorInv (s : State) : Prop :=
  ∀ g ∈ s.groups, ∃ r ∈ s.members, r.user = g.created_by ∧ r.group = g.id ∧ r.is_admin = true

theorem find?_id_unique {l : List Group} (hnd : (l.map (fun g => g.id)).Nodup)
    {g : Group} (hg : g ∈ l) : l.find? (fun x => x.id == g.id) = some g := by
  induction l with
  | nil => cases hg
  | cons x xs ih =>
    rw [List.map_cons] at hnd
    rcases List.nodup_cons.mp hnd with ⟨hnotin, hnd'⟩
    rcases List.mem_cons.mp hg with rfl | hg'
    · exact List.find?_cons_of_pos _ (by simp)
    · have hx : (x.id == g.id) = false := by
        rw [beq_eq_false_iff_ne]
        intro h
        exact hnotin (h ▸ List.mem_map_of_mem (fun g => g.id) hg')
      rw [List.find?_cons_of_neg _ (by simp [hx])]
      exact ih hnd' hg'

theorem leave_result (s : State) (u gid : Nat) :
    (leave s u gid).1 = s
    ∨ ((leave s u gid).1
          = { s with members := s.members.filter fun r => !(r.user == u && r.group == gid) }
        ∧ ∃ g0, s.groups.find? (fun x => x.id == gid) = some g0
            ∧ (g0.created_by == u) = false) := by
  simp only [leave]
  cases hfind : s.groups.find? (fun x => x.id == gid) with
  | none => left; rfl
  | some g0 =>
    cases h1 : memberExists s.members u gid with
    | false => left; simp [h1]
    | true =>
      cases h2 : (g0.created_by == u) with
      | true => left; simp [h1, h2]
      | false =>
        by_cases h3 : 0 < (List.filter (fun r => r.user == u && r.group == gid) s.members).length
        · right
          refine ⟨by simp [h1, h2, h3], g0, rfl, h2⟩
        · left; simp [h1, h2, h3]

theorem remove_member_result (s : State) (a gid t : Nat) :
    (remove_member s a gid t).1 = s
    ∨ ((remove_member s a gid t).1
          = { s with members := s.members.filter fun r => !(r.user == t && r.group == gid) }
        ∧ ∃ g0, s.groups.find? (fun x => x.id == gid) = some g0
            ∧ (g0.created_by == t) = false) := by
  simp only [remove_member]
  cases hfind : s.groups.find? (fun x => x.id == gid) with
  | none => left; rfl
  | some g0 =>
    cases h1 : IsGroupAdmin s.members a gid with
    | false => left; simp [h1]
    | true =>
      cases h2 : (g0.created_by == t) with
      | true => left; simp [h1, h2]
      | false =>
        cases h3 : s.members.any (fun r => r.user == t && r.group == gid) with
        | false => left; simp [h1, h2, h3]
        | true =>
          right
          refine ⟨by simp [h1, h2, h3], g0, rfl, h2⟩

theorem promote_member_result (s : State) (a gid t : Nat) :
    (promote_member s a gid t).1 = s
    ∨ (promote_member s a gid t).1
        = { s with members := s.members.map fun r =>
            if r.user == t && r.group == gid then { r with is_admin := true } else r } := by
  simp only [promote_member]
  cases hfind : s.groups.find? (fun x => x.id == gid) with
  | none => left; rfl
  | some g0 =>
    cases h1 : IsGroupAdmin s.members a gid with
    | false => left; simp [h1]
    | true =>
      cases hfm : s.members.find? (fun r => r.user == t && r.group == gid) with
      | none => left; simp [h1, hfm]
      | some r0 =>
        cases h2 : r0.is_admin with
        | true => left; simp [h1, hfm, h2]
        | false => right; simp [h1, hfm, h2]

/-- Membership rows removed by a delete keyed on (user', gid) never include a
group creator's row, provided the creator guard held for the group found
under gid. -/
theorem creatorInv_filter_delete (s : State) (u' gid : Nat)
    (hids : GroupIdsOk s) (hinv : CreatorInv s)
    (hguard : ∃ g0, s.groups.find? (fun x => x.id == gid) = some g0
        ∧ (g0.created_by == u') = false) :
    CreatorInv { s with members := s.members.filter fun r => !(r.user == u' && r.group == gid) } := by
  obtain ⟨g0, hfind, hne⟩ := hguard
  intro g hg
  obtain ⟨r, hr, hu, hgr, ha⟩ := hinv g hg
  refine ⟨r, List.mem_filter.mpr ⟨hr, ?_⟩, hu, hgr, ha⟩
  simp only [Bool.not_eq_eq_eq_not, Bool.not_true, Bool.and_eq_false_iff]
  by_cases hcu : (r.user == u') = true
  · by_cases hcg : (r.group == gid) = true
    · exfalso
      have hgid : g.id = gid := by
        have := beq_iff_eq.mp hcg
        rw [← hgr, this]
      have hfind2 : s.groups.find? (fun x => x.id == g.id) = some g :=
        find?_id_unique hids.2 hg
      rw [hgid] at hfind2
      rw [hfind2] at hfind
      injection hfind with hgeq
      have : g.created_by = u' := by
        rw [← hu]
        exact beq_iff_eq.mp hcu
      rw [← hgeq, this] at hne
      simp at hne
    · right; exact Bool.eq_false_iff.mpr hcg
  · left; exact Bool.eq_false_iff.mpr hcu

theorem creator_preserved_create (s : State) (u : Nat) (n : String)
    (hids : GroupIdsOk s) (hinv : CreatorInv s) :
    GroupIdsOk (create_group s u n).1 ∧ CreatorInv (create_group s u n).1 := by
  by_cases hdup : (s.groups.any (fun g => g.name.toLower == n.toLower)) = true
  · simp only [create_group, hdup, if_true]
    exact ⟨hids, hinv⟩
  · simp only [create_group]
    rw [if_neg hdup]
    refine ⟨⟨?_, ?_⟩, ?_⟩
    · intro g hg
      rcases List.mem_append.mp hg with hg' | hg'
      · exact Nat.lt_succ_of_lt (hids.1 g hg')
      · rw [List.mem_singleton.mp hg']
        exact Nat.lt_succ_self _
    · rw [List.map_append]
      apply List.Nodup.append hids.2 (List.nodup_singleton _)
      intro a ha hb
      have hb' : a = s.nextId := by simpa using hb
      subst hb'
      rcases List.mem_map.mp ha with ⟨g, hg, hga⟩
      have := hids.1 g hg
      omega
    · intro g hg
      rcases List.mem_append.mp hg with hg' | hg'
      · obtain ⟨r, hr, h1, h2, h3⟩ := hinv g hg'
        exact ⟨r, List.mem_append_left _ hr, h1, h2, h3⟩
      · rw [List.mem_singleton.mp hg']
        exact ⟨⟨u, s.nextId, true⟩,
          List.mem_append_right _ (List.mem_singleton_self _), rfl, rfl, rfl⟩

theorem creator_preserved_join (s : State) (u gid : Nat)
    (hids : GroupIdsOk s) (hinv : CreatorInv s) :
    GroupIdsOk (join s u gid).1 ∧ CreatorInv (join s u gid).1 := by
  simp only [join]
  cases hfind : s.groups.find? (fun g => g.id == gid) with
  | none => exact ⟨hids, hinv⟩
  | some g0 =>
    cases h1 : s.members.any (fun r => r.user == u && r.group == gid) with
    | true => simp only [h1, if_true]; exact ⟨hids, hinv⟩
    | false =>
      simp only [h1, Bool.false_eq_true, if_false]
      refine ⟨hids, ?_⟩
      intro g hg
      obtain ⟨r, hr, h2, h3, h4⟩ := hinv g hg
      exact ⟨r, List.mem_append_left _ hr, h2, h3, h4⟩

theorem creator_preserved_leave (s : State) (u gid : Nat)
    (hids : GroupIdsOk s) (hinv : CreatorInv s) :
    GroupIdsOk (leave s u gid).1 ∧ CreatorInv (leave s u gid).1 := by
  rcases leave_result s u gid with h | ⟨h, hguard⟩
  · rw [h]; exact ⟨hids, hinv⟩
  · rw [h]
    exact ⟨hids, creatorInv_filter_delete s u gid hids hinv hguard⟩

theorem creator_preserved_remove (s : State) (a gid t : Nat)
    (hids : GroupIdsOk s) (hinv : CreatorInv s) :
    GroupIdsOk (remove_member s a gid t).1 ∧ CreatorInv (remove_member s a gid t).1 := by
  rcases remove_member_result s a gid t with h | ⟨h, hguard⟩
  · rw [h]; exact ⟨hids, hinv⟩
  · rw [h]
    exact ⟨hids, creatorInv_filter_delete s t gid hids hinv hguard⟩

theorem creator_preserved_promote (s : State) (a gid t : Nat)
    (hids : GroupIdsOk s) (hinv : CreatorInv s) :
    GroupIdsOk (promote_member s a gid t).1 ∧ CreatorInv (promote_member s a gid t).1 := by
  rcases promote_member_result s a gid t with h | h
  · rw [h]; exact ⟨hids, hinv⟩
  · rw [h]
    refine ⟨hids, ?_⟩
    intro g hg
    obtain ⟨r, hr, h1, h2, h3⟩ := hinv g hg
    refine ⟨_, List.mem_map_of_mem _ hr, ?_, ?_, ?_⟩
    · by_cases hc : (r.user == t && r.group == gid) = true
      · rw [if_pos hc]; exact h1
      · rw [if_neg hc]; exact h1
    · by_cases hc : (r.user == t && r.group == gid) = true
      · rw [if_pos hc]; exact h2
      · rw [if_neg hc]; exact h2
    · by_cases hc : (r.user == t && r.group == gid) = true
      · rw [if_pos hc]
      · rw [if_neg hc]; exact h3

theorem leave_creator_rejected (s : State) (hids : GroupIdsOk s)
    (g : Group) (hg : g ∈ s.groups) :
    (leave s g.created_by g.id).1 = s
    ∧ ∃ e, (leave s g.created_by g.id).2 = Except.error e := by
  have hfind : s.groups.find? (fun x => x.id == g.id) = some g := find?_id_unique hids.2 hg
  simp only [leave, hfind]
  cases h1 : memberExists s.members g.created_by g.id with
  | false => simp [h1]
  | true => simp [h1]

theorem remove_creator_rejected (s : State) (hids : GroupIdsOk s)
    (g : Group) (hg : g ∈ s.groups) (a : Nat) :
    (remove_member s a g.id g.created_by).1 = s
    ∧ ∃ e, (remove_member s a g.id g.created_by).2 = Except.error e := by
  have hfind : s.groups.find? (fun x => x.id == g.id) = some g := find?_id_unique hids.2 hg
  simp only [remove_member, hfind]
  cases h1 : IsGroupAdmin s.members a g.id with
  | false => simp [h1]
  | true => simp [h1]

/-- C8: the creator-membership invariant.  Group creation installs an
admin membership row for the creator; every group operation (create, join,
leave, remove, promote) preserves both the primary-key discipline and the
invariant; a creator's own leave request is rejected with an error and
changes nothing; and removing the creator is rejected with an error and
changes nothing. -/
theorem c8_creator_membership (s : State) (h : GroupIdsOk s ∧ CreatorInv s) :
    (∀ op, GroupIdsOk (applyGroupOp s op) ∧ CreatorInv (applyGroupOp s op))
    ∧ (∀ g ∈ s.groups, (leave s g.created_by g.id).1 = s
        ∧ ∃ e, (leave s g.created_by g.id).2 = Except.error e)
    ∧ (∀ g ∈ s.groups, ∀ a, (remove_member s a g.id g.created_by).1 = s
        ∧ ∃ e, (remove_member s a g.id g.created_by).2 = Except.error e) := by
  obtain ⟨hids, hinv⟩ := h
  refine ⟨?_, ?_, ?_⟩
  · intro op
    cases op with
    | createGroup u n => exact creator_preserved_create s u n hids hinv
    | joinGroup u g => exact creator_preserved_join s u g hids hinv
    | leaveGroup u g => exact creator_preserved_leave s u g hids hinv
    | removeMember a g t => exact creator_preserved_remove s a g t hids hinv
    | promoteMember a g t => exact creator_preserved_promote s a g t hids hinv
  · intro g hg
    exact leave_creator_rejected s hids g hg
  · intro g hg a
    exact remove_creator_rejected s hids g hg a

/-- Concrete instantiation of the C8 theorem: creating a group in the empty
store yields a store that still satisfies key discipline and the
creator-membership invariant. -/
theorem c8_creator_membership_witness :
    GroupIdsOk (applyGroupOp ⟨[], [], [], [], [], 0⟩ (GroupOp.createGroup 7 "g"))
    ∧ CreatorInv (applyGroupOp ⟨[], [], [], [], [], 0⟩ (GroupOp.createGroup 7 "g")) :=
  (c8_creator_membership ⟨[], [], [], [], [], 0⟩
    ⟨⟨fun g hg => absurd hg (List.not_mem_nil g), List.nodup_nil⟩,
      fun g hg => absurd hg (List.not_mem_nil g)⟩).1
    (GroupOp.createGroup 7 "g")

/-- An event envelope published to the `messaging_events` channel: type tag
plus identifying data. -/
structure Event where
  etype : String
  data : List Nat
deriving DecidableEq, Repr

/-- The raw redis publish call: fails when the channel is unavailable. -/
def redis_publish (available : Bool) (e : Event) : Except String Unit :=
  if available then Except.ok () else Except.error "Connection refused"

/-- `broadcast_to_redis`: the publish wrapped in try/except — a failure is
caught and logged (the returned string is the log line), never propagated. -/
def broadcast_to_redis (available : Bool) (e : Event) : Except String String :=
  match redis_publish available e with
  | Except.ok _ => Except.ok ("Broadcasted " ++ e.etype)
  | Except.error err => Except.ok ("Failed to broadcast: " ++ err)

/-- Publish a batch of events, aborting at the first uncaught failure. -/
def publishAll (available : Bool) : List Event → Except String (List String)
  | [] => Except.ok []
  | e :: rest =>
    match broadcast_to_redis available e with
    | Except.error err => Except.error err
    | Except.ok log =>
      match publishAll available rest with
      | Except.error err => Except.error err
      | Except.ok logs => Except.ok (log :: logs)

/-- `mark_read` including its event publishing (one `message_read` per newly
created receipt, then `unread_count_update` when anything was marked): the
request would fail if an exception escaped the broadcast step. -/
def mark_read_api (available : Bool) (s : State) (u : Nat) (ids : List Nat) :
    Except String (State × MarkReadResult) :=
  let r := mark_read s u ids
  let evs := match r.2 with
    | MarkReadResult.error _ => []
    | MarkReadResult.ok cnt rids =>
      rids.map (fun i => Event.mk "message_read" [i, u])
        ++ (if 0 < cnt then [Event.mk "unread_count_update" [u]] else [])
  match publishAll available evs with
  | Except.error err => Except.error err
  | Except.ok _ => Except.ok r

/-- `react` including its `message_reaction` event. -/
def react_api (available : Bool) (s : State) (u mid : Nat) (e : String) :
    Except String (State × Except String String) :=
  let r := react s u mid e
  let evs := match r.2 with
    | Except.error _ => []
    | Except.ok _ => [Event.mk "message_reaction" [mid, u]]
  match publishAll available evs with
  | Except.error err => Except.error err
  | Except.ok _ => Except.ok r

/-- `leave` including its `user_left` event. -/
def leave_api (available : Bool) (s : State) (u gid : Nat) :
    Except String (State × Except String String) :=
  let r := leave s u gid
  let evs := match r.2 with
    | Except.error _ => []
    | Except.ok _ => [Event.mk "user_left" [u, gid]]
  match publishAll available evs with
  | Except.error err => Except.error err
  | Except.ok _ => Except.ok r

/-- `perform_create` (message send) including its `group_message` /
`private_message_handler` event. -/
def send_message_api (available : Bool) (s : State) (u : Nat) (a : MessageDraft)
    (now : Nat) : Except String (State × Except ValidationError Nat) :=
  let r := send_message s u a now
  let evs := match r.2 with
    | Except.error _ => []
    | Except.ok mid =>
      [Event.mk (if a.message_type == "group" then "group_message"
        else "private_message_handler") [mid]]
  match publishAll available evs with
  | Except.error err => Except.error err
  | Except.ok _ => Except.ok r

theorem broadcast_never_fails (available : Bool) (e : Event) :
    ∃ log, broadcast_to_redis available e = Except.ok log := by
  cases available <;> simp [broadcast_to_redis, redis_publish]

theorem publishAll_never_fails (available : Bool) (evs : List Event) :
    ∃ logs, publishAll available evs = Except.ok logs := by
  induction evs with
  | nil => exact ⟨[], rfl⟩
  | cons e rest ih =>
    obtain ⟨log, hlog⟩ := broadcast_never_fails available e
    obtain ⟨logs, hlogs⟩ := ih
    exact ⟨log :: logs, by simp [publishAll, hlog, hlogs]⟩

theorem publish_then_ok {α : Type} (available : Bool) (evs : List Event) (r : α) :
    (match publishAll available evs with
      | Except.error err => Except.error err
      | Except.ok _ => Except.ok r) = Except.ok r := by
  obtain ⟨logs, h⟩ := publishAll_never_fails available evs
  rw [h]

/-- C9: broadcast failure isolation.  The broadcast helper never propagates a
publish failure, and each write operation wrapped with its event publishing
(mark read, react, leave, message send) returns exactly the persisted
operation's result whether or not the channel is available. -/
theorem c9_broadcast_isolation (s : State) :
    (∀ available e, ∃ log, broadcast_to_redis available e = Except.ok log)
    ∧ (∀ available u ids, mark_read_api available s u ids
        = Except.ok (mark_read s u ids))
    ∧ (∀ available u mid e, react_api available s u mid e
        = Except.ok (react s u mid e))
    ∧ (∀ available u gid, leave_api available s u gid
        = Except.ok (leave s u gid))
    ∧ (∀ available u a now, send_message_api available s u a now
        = Except.ok (send_message s u a now)) := by
  refine ⟨fun available e => broadcast_never_fails available e, ?_, ?_, ?_, ?_⟩
  · intro available u ids
    simp only [mark_read_api]
    exact publish_then_ok available _ _
  · intro available u mid e
    simp only [react_api]
    exact publish_then_ok available _ _
  · intro available u gid
    simp only [leave_api]
    exact publish_then_ok available _ _
  · intro available u a now
    simp only [send_message_api]
    exact publish_then_ok available _ _

end Messaging
